import Mathlib

/-!
Shallow embedding of the Splunk HEC span sink
(`src/sinks/splunk/splunk.go` of TriggerMail/veneur).

Pure data and decision logic are translated directly from the Go source.
Goroutine/channel interaction is embedded as explicit state passing:
the outcome of a `select` becomes an explicit parameter constrained by a
possibility predicate, and the submitter goroutine's loop becomes a
recursive function over a scripted list of channel arrivals.
Machine integers: Go `uint32` counters live in `Nat` with explicit
wrap-around modulo `2^32`; Go `int`/`int64`/`time.Duration` live in `Int`.
-/

namespace Veneur.Splunk

/-- `uint32` wrap-around, as performed by `atomic.AddUint32`. -/
def wrap32 (n : Nat) : Nat := n % 2 ^ 32

/-- Two's-complement wrap-around of a 64-bit signed integer, as performed
by Go `int64` arithmetic. -/
def wrap64 (x : Int) : Int := (x + 2 ^ 63) % 2 ^ 64 - 2 ^ 63

/-- The fields of `ssf.SSFSpan` that `splunk.go` reads (`Ingest` and
`serializeSpan` touch exactly these). -/
structure SSFSpan where
  traceId : Int
  id : Int
  parentId : Int
  startTimestamp : Int
  endTimestamp : Int
  error : Bool
  service : String
  tags : List (String × String)
  indicator : Bool
  name : String
deriving DecidableEq

/-- Modelled from the spec: `protocol.ValidateTrace` is not under `src/`.
The spec's span data model states "duration = end − start, must be ≥ 0";
a span violating that is not properly filled out and validation returns a
classified error, otherwise `nil` (here `none`). -/
def ValidateTrace (span : SSFSpan) : Option String :=
  if span.endTimestamp - span.startTimestamp < 0 then
    some "span duration must be nonnegative"
  else
    none

/-- `SerializedSSF` from `splunk.go`: ids re-encoded as decimal strings
(`strconv.FormatInt(x, 10)`), timestamps as seconds (Go divides the
nanosecond count by `float64(time.Second)`; here the quotient is kept
exactly as a rational), duration in nanoseconds. -/
structure SerializedSSF where
  traceId : String
  id : String
  parentId : String
  startTimestamp : Rat
  endTimestamp : Rat
  duration : Int
  error : Bool
  service : String
  tags : List (String × String)
  indicator : Bool
  name : String
deriving DecidableEq

/-- Modelled from the spec: the HEC `Event` type is not under `src/`.
Per the spec's HEC event body, an event carries a time (set by `SetTime`
from `time.Unix(0, startTimestamp)`, kept here in nanoseconds), a host
(`SetHost`), a sourcetype (`SetSourceType`) and the serialized span. -/
structure Event where
  time : Int
  host : String
  sourcetype : String
  event : SerializedSSF
deriving DecidableEq

/-- Modelled from the spec: `newHecClient` is not under `src/`; the spec's
sink configuration lists an endpoint URL and auth token, which is what the
constructor hands over. (Construction may also fail on an invalid URL, in
which case `NewSplunkSpanSink` propagates that error before building any
state; none of the claims concern that path.) -/
structure HecClient where
  server : String
  token : String
deriving DecidableEq

/-- The fields of `http.Transport` that `NewSplunkSpanSink` sets. -/
structure Transport where
  maxIdleConnsPerHost : Int
  tlsServerName : Option String
  responseHeaderTimeout : Option Int
deriving DecidableEq

/-- The `splunkSpanSink` struct. `sendTimeout`, `ingestTimeout` are Go
`time.Duration` (nanoseconds); `ingestedSpans`, `droppedSpans`,
`skippedSpans` are `uint32` counters. -/
structure SplunkSpanSink where
  hec : HecClient
  hostname : String
  sendTimeout : Int
  ingestTimeout : Int
  workers : Int
  batchSize : Int
  hecSubmissionWorkers : Int
  ingestedSpans : Nat
  droppedSpans : Nat
  skippedSpans : Nat
  spanSampleRate : Int
deriving DecidableEq

/-- `NewSplunkSpanSink`: clamps `spanSampleRate` below 1 up to 1, sizes the
transport's idle pool from the `workers` argument, configures TLS server
name and response-header timeout, and builds the sink struct.  The Go
composite literal does not mention the struct fields `workers`,
`hecSubmissionWorkers` or the three counters, so they start at their Go
zero values. -/
def NewSplunkSpanSink (server token localHostname validateServerName : String)
    (ingestTimeout sendTimeout : Int) (batchSize workers spanSampleRate : Int) :
    Transport × SplunkSpanSink :=
  let spanSampleRate := if spanSampleRate < 1 then 1 else spanSampleRate
  let trnsp : Transport :=
    { maxIdleConnsPerHost := workers
      tlsServerName := if validateServerName ≠ "" then some validateServerName else none
      responseHeaderTimeout := if sendTimeout > 0 then some sendTimeout else none }
  (trnsp,
    { hec := ⟨server, token⟩
      hostname := localHostname
      sendTimeout := sendTimeout
      ingestTimeout := ingestTimeout
      batchSize := batchSize
      spanSampleRate := spanSampleRate
      workers := 0
      hecSubmissionWorkers := 0
      ingestedSpans := 0
      droppedSpans := 0
      skippedSpans := 0 })

/-- The number of submitter goroutines `Start` spawns (and the length of
the `sync` channel slice it builds): `sss.workers` when positive, else 1. -/
def startWorkers (sss : SplunkSpanSink) : Int :=
  if sss.workers > 0 then sss.workers else 1

/-- `serializeSpan`: the body of `Ingest` after the sampling check, building
the `SerializedSSF` and the HEC event (`SetTime`/`SetHost`/`SetSourceType`). -/
def serializeSpan (hostname : String) (span : SSFSpan) : Event :=
  let serialized : SerializedSSF :=
    { traceId := toString span.traceId
      id := toString span.id
      parentId := toString span.parentId
      startTimestamp := (span.startTimestamp : Rat) / 1000000000
      endTimestamp := (span.endTimestamp : Rat) / 1000000000
      duration := wrap64 (span.endTimestamp - span.startTimestamp)
      error := span.error
      service := span.service
      tags := span.tags
      indicator := span.indicator
      name := span.name }
  { time := span.startTimestamp
    host := hostname
    sourcetype := span.service
    event := serialized }

/-- Completion of the `select` at the end of `Ingest`: either a submitter
received the event from the rendezvous channel, or the context's timeout
fired first. -/
inductive SendOutcome
  | sent
  | timedOut
deriving DecidableEq

/-- Which `select` completions are possible: the send can complete only if
some submitter is draining the channel (`receiverReady`), and the timeout
branch exists only when `ingestTimeout > 0` (otherwise the context is
`Background` and the send is unbounded). -/
def outcomePossible (ingestTimeout : Int) (receiverReady : Bool) : SendOutcome → Bool
  | .sent => receiverReady
  | .timedOut => decide (ingestTimeout > 0)

/-- The observable result of one `Ingest` call: the returned error, the
sink's counter state afterwards, and the event handed to a submitter (if
any). -/
structure IngestStep where
  ret : Option String
  sink : SplunkSpanSink
  sent : Option Event
deriving DecidableEq

/-- `Ingest`: validate (returning the validation error to the caller on
failure), sample on `!Indicator && TraceId % spanSampleRate != 0` (Go's
`%` on `int64` is truncated division remainder, `Int.tmod`), serialize,
then send on the rendezvous channel under the optional timeout. -/
def Ingest (sss : SplunkSpanSink) (span : SSFSpan) (outcome : SendOutcome) : IngestStep :=
  match ValidateTrace span with
  | some err => ⟨some err, sss, none⟩
  | none =>
    if ¬span.indicator ∧ span.traceId.tmod sss.spanSampleRate ≠ 0 then
      ⟨none, { sss with skippedSpans := wrap32 (sss.skippedSpans + 1) }, none⟩
    else
      let event := serializeSpan sss.hostname span
      match outcome with
      | .sent => ⟨none, { sss with ingestedSpans := wrap32 (sss.ingestedSpans + 1) }, some event⟩
      | .timedOut => ⟨none, { sss with droppedSpans := wrap32 (sss.droppedSpans + 1) }, none⟩

/-- Whether the given `Ingest` call took the sampling-skip branch, read off
the observable counter change. -/
def samplingSkips (sss : SplunkSpanSink) (span : SSFSpan) (outcome : SendOutcome) : Bool :=
  decide ((Ingest sss span outcome).sink.skippedSpans ≠ sss.skippedSpans)

/-! ## The submitter goroutine

`submitter` runs a nested loop: the outer iteration opens a fresh HEC
request, the inner (labelled) loop selects between the worker's sync
channel and the shared ingest channel.  The channel arrivals a submitter
sees are embedded as a scripted list of inputs: a value on the sync
channel, the sync channel being closed (Stop), or an event from the
ingest channel together with whether `enc.Encode` succeeds on it.
Whether `hecReq.Start()` succeeds for the batch's first event is the
`startOk` parameter. -/

/-- One arrival a submitter can select. -/
inductive SubInput
  | syncSig
  | stopSig
  | ev (e : Event) (encodeOk : Bool)
deriving DecidableEq

/-- How one run of the inner (batch) loop ended. -/
inductive BatchEnd
  | synced
  | stopped
  | full
  | startFailed
  | starved
deriving DecidableEq

/-- The result of one run of the inner loop: the value of the `ingested`
counter, the events encoded into the request body, whether an HTTP request
was started, how the batch ended, and the inputs not yet consumed.
`starved` is a model artifact marking that the scripted inputs ran out
while the Go loop would keep blocking on `select`. -/
structure BatchResult where
  ingested : Nat
  body : List Event
  requestStarted : Bool
  ended : BatchEnd
  rest : List SubInput
deriving DecidableEq

/-- The inner `Batch:` loop of `submitter`.  Faithful control flow:
`ingested` is incremented as soon as an event arrives; a failed
`hecReq.Start()` on the batch's first event warns, sleeps and breaks the
batch (the event is counted but written nowhere); a failed `enc.Encode`
does `continue Batch`, skipping the batch-size check; the size check
`ingested >= batchSize` runs only after a successful encode. -/
def runBatchAux (batchSize : Int) (startOk : Bool) :
    List SubInput → Nat → Bool → List Event → BatchResult
  | [], ingested, started, body => ⟨ingested, body, started, .starved, []⟩
  | .syncSig :: rest, ingested, started, body => ⟨ingested, body, started, .synced, rest⟩
  | .stopSig :: rest, ingested, started, body => ⟨ingested, body, started, .stopped, rest⟩
  | .ev e encodeOk :: rest, ingested, started, body =>
    let ing := ingested + 1
    if started = false ∧ startOk = false then
      ⟨ing, body, started, .startFailed, rest⟩
    else if encodeOk = false then
      runBatchAux batchSize startOk rest ing true body
    else
      let body' := body ++ [e]
      if (ing : Int) ≥ batchSize then ⟨ing, body', true, .full, rest⟩
      else runBatchAux batchSize startOk rest ing true body'

/-- One batch of `submitter`, started with a fresh HEC request:
`ingested = 0`, no request begun, empty body. -/
def runBatch (batchSize : Int) (startOk : Bool) (inputs : List SubInput) : BatchResult :=
  runBatchAux batchSize startOk inputs 0 false []

/-- The outer loop of `submitter`: run batches until the sync channel is
closed (`return`) or the scripted inputs are exhausted.  `fuel` bounds the
number of batches the model will run; every theorem supplies enough. -/
def submitterRun (batchSize : Int) (startOk : Bool) : Nat → List SubInput → List BatchResult
  | 0, _ => []
  | fuel + 1, inputs =>
    let r := runBatch batchSize startOk inputs
    match r.ended with
    | .stopped => [r]
    | .starved => [r]
    | _ => r :: submitterRun batchSize startOk fuel r.rest

/-- The events appearing on a scripted input list. -/
def eventsOf (inputs : List SubInput) : List Event :=
  inputs.filterMap fun
    | .ev e _ => some e
    | _ => none

/-- All events written to request bodies over a submitter run. -/
def allBodies (rs : List BatchResult) : List Event :=
  (rs.map BatchResult.body).flatten

/-! ## Sync, Stop and Flush -/

/-- The operations the coordinator thread performs, in order, on the
submitters' channels and the `synced` wait group. -/
inductive MainOp
  | addWG (k : Nat)
  | sendChan (i : Nat)
  | closeChan (i : Nat)
  | waitAll
deriving DecidableEq

/-- `Stop`: close each submitter's sync channel, in order, and return.
(A channel close never blocks and nothing here waits on the submitters.) -/
def StopOps (n : Nat) : List MainOp :=
  (List.range n).map .closeChan

/-- `Sync`: `synced.Add(len(sync))`, send one value on each sync channel,
then `synced.Wait()` for the submitters' acknowledgements. -/
def SyncOps (n : Nat) : List MainOp :=
  .addWG n :: ((List.range n).map .sendChan ++ [.waitAll])

/-- Per-interval self-metrics reported by `Flush` (the three
`atomic.SwapUint32` reads). -/
structure FlushReport where
  flushedTotal : Nat
  droppedTotal : Nat
  skippedTotal : Nat
deriving DecidableEq

/-- The observable steps of `Flush`, in order. -/
inductive FlushOp
  | syncOp
  | reportOp (r : FlushReport)
deriving DecidableEq

/-- `Flush`: call `Sync()`, then build the three counters by
`atomic.SwapUint32(&c, 0)` (read the value, leave zero behind) and report
them. -/
def Flush (sss : SplunkSpanSink) : List FlushOp × SplunkSpanSink :=
  ([.syncOp, .reportOp ⟨sss.ingestedSpans, sss.droppedSpans, sss.skippedSpans⟩],
   { sss with ingestedSpans := 0, droppedSpans := 0, skippedSpans := 0 })

/-! ## An interleaving model of `Stop` against the submitters

`Stop` runs on the coordinator thread while the submitters run
concurrently.  The state records how many sync channels the coordinator
has closed, whether `Stop` has returned, and which submitters have
observed their closed channel and exited. -/

/-- Joint state of the coordinator's `Stop` and the `n` submitters. -/
structure StopState where
  closed : Nat
  returned : Bool
  exited : List Bool
deriving DecidableEq

/-- Initial state: no channel closed, `Stop` not returned, no submitter
exited. -/
def stopInit (n : Nat) : StopState :=
  ⟨0, false, List.replicate n false⟩

/-- Interleaved steps: the coordinator closes the next channel, returns
from `Stop` once all `n` are closed, or submitter `i` observes its closed
channel (receiving the zero value with `ok = false`) and exits. -/
inductive StopStep (n : Nat) : StopState → StopState → Prop
  | closeCh (s : StopState) : s.closed < n → s.returned = false →
      StopStep n s { s with closed := s.closed + 1 }
  | ret (s : StopState) : s.closed = n → s.returned = false →
      StopStep n s { s with returned := true }
  | observe (s : StopState) (i : Nat) : i < s.closed →
      StopStep n s { s with exited := s.exited.set i true }

/-- Reachability under interleaved `Stop`/submitter steps. -/
def StopReach (n : Nat) : StopState → StopState → Prop :=
  Relation.ReflTransGen (StopStep n)

/-! ## `makeHTTPRequest`: response classification -/

/-- The HEC `Response` type is consumed by `makeHTTPRequest` via its
`Code`, `Text` and `InvalidEventNumber` fields (the type itself is not
under `src/`; the fields are exactly those `splunk.go` reads). -/
structure HECResponse where
  code : Int
  text : String
  invalidEventNumber : Int
deriving DecidableEq

/-- Whether the response body parses as a `Response` when the default
branch runs `json.NewDecoder(resp.Body).Decode`. -/
inductive HECBody
  | parses (r : HECResponse)
  | unparseable
deriving DecidableEq

/-- What `httpClient.Do(req)` produced: a `url.Error` that is a timeout,
any other transport error, or a response with a status code and body. -/
inductive HTTPResult
  | urlTimeout
  | otherError
  | response (statusCode : Int) (body : HECBody)
deriving DecidableEq

/-- A sample added to the `ssf.Samples` batch: an outcome counter with its
`cause`/`status_code` tags, or the lifetime timing. -/
inductive Sample
  | count (metric : String) (cause : Option String) (statusCode : Option String)
  | timing (metric : String)
deriving DecidableEq

/-- Log lines `makeHTTPRequest` can emit. -/
inductive LogEvent
  | warnCouldNotParse (httpStatus : Int)
  | errorHECResponse (httpStatus : Int) (hecCode : Int) (text : String) (eventNumber : Int)
deriving DecidableEq

def successMetric : String := "splunk.hec_submission_success_total"

def failureMetric : String := "splunk.hec_submission_failed_total"

def timingMetric : String := "splunk.span_submission_lifetime_ns"

/-- `makeHTTPRequest`: classify the submission outcome.  The timing sample
is appended by a deferred closure on every path; every early `return`
still reports what was added so far.  The default branch parses the body
and, on a parse failure, only warns — note it returns without adding any
outcome counter. -/
def makeHTTPRequest (res : HTTPResult) : List Sample × List LogEvent :=
  match res with
  | .urlTimeout =>
    ([.count failureMetric (some "submission_timeout") none, .timing timingMetric], [])
  | .otherError =>
    ([.count failureMetric (some "execution") none, .timing timingMetric], [])
  | .response statusCode body =>
    if statusCode = 200 then
      ([.count successMetric none none, .timing timingMetric], [])
    else if statusCode = 500 then
      ([.count failureMetric (some "internal_server_error") (some "8"), .timing timingMetric], [])
    else if statusCode = 503 then
      ([.count failureMetric (some "service_unavailable") (some "9"), .timing timingMetric], [])
    else
      match body with
      | .parses parsed =>
        ([.count failureMetric (some "error") (some (toString parsed.code)), .timing timingMetric],
         [.errorHECResponse statusCode parsed.code parsed.text parsed.invalidEventNumber])
      | .unparseable =>
        ([.timing timingMetric], [.warnCouldNotParse statusCode])

/-- The number of outcome (success or failure) counters in a sample batch. -/
def outcomeCount (samples : List Sample) : Nat :=
  (samples.filter fun s =>
    match s with
    | .count _ _ _ => true
    | .timing _ => false).length

/-! ## Concrete instances used by counterexamples and witnesses -/

/-- A properly filled-out span (duration 100ns, trace id 5). -/
def sampleSpan : SSFSpan :=
  ⟨5, 1, 0, 100, 200, false, "veneur-test", [], false, "query"⟩

/-- The HEC event `Ingest` builds from `sampleSpan`. -/
def sampleEvent : Event := serializeSpan "localhost" sampleSpan

/-- Scripted submitter inputs for the spec's end-to-end scenario 4:
100 admitted, encodable spans followed by shutdown. -/
def c5Inputs : List SubInput := List.replicate 100 (.ev sampleEvent true) ++ [.stopSig]

/-- A sink as `NewSplunkSpanSink` builds it, with `spanSampleRate = 2`. -/
def exampleSink : SplunkSpanSink :=
  (NewSplunkSpanSink "http://splunk.service.consul" "token" "localhost" "" 0 0 10 2 2).2

/-- A valid non-indicator span whose trace id 1 is not divisible by the
example sink's sample rate 2. -/
def oddSpan : SSFSpan :=
  ⟨1, 7, 3, 100, 200, false, "veneur-test", [], false, "query"⟩

/-- A span that fails validation (it ends before it starts). -/
def invalidSpan : SSFSpan :=
  ⟨5, 7, 3, 200, 100, false, "veneur-test", [], false, "query"⟩

/-! ## Helper lemmas -/

/-- Incrementing a `uint32` counter always changes its value. -/
theorem wrap32_succ_ne (k : Nat) : wrap32 (k + 1) ≠ k := by
  unfold wrap32
  omega

/-- `Ingest` returns to its caller exactly the result of `ValidateTrace`:
the validation error when there is one, `nil` otherwise. -/
theorem ingest_ret_eq (sss : SplunkSpanSink) (span : SSFSpan) (o : SendOutcome) :
    (Ingest sss span o).ret = ValidateTrace span := by
  cases h : ValidateTrace span <;> cases o <;> simp only [Ingest, h] <;>
    first
      | rfl
      | (split <;> rfl)

/-- For a valid span, the sampling-skip observable coincides with the Go
condition `!Indicator && TraceId % spanSampleRate != 0`. -/
theorem samplingSkips_eq (sss : SplunkSpanSink) (span : SSFSpan) (o : SendOutcome)
    (hv : ValidateTrace span = none) :
    samplingSkips sss span o
      = decide (¬span.indicator = true ∧ span.traceId.tmod sss.spanSampleRate ≠ 0) := by
  by_cases h : ¬span.indicator = true ∧ span.traceId.tmod sss.spanSampleRate ≠ 0
  · simp only [samplingSkips, Ingest, hv, if_pos h]
    rw [decide_eq_true h]
    exact decide_eq_true (wrap32_succ_ne _)
  · simp only [samplingSkips, Ingest, hv, if_neg h]
    rw [decide_eq_false h]
    cases o <;> simp

/-- A batch consumes at least one scripted input. -/
theorem runBatchAux_rest_length (bs : Int) (so : Bool) :
    ∀ (inputs : List SubInput) (ing : Nat) (st : Bool) (b : List Event),
      inputs ≠ [] → (runBatchAux bs so inputs ing st b).rest.length < inputs.length := by
  intro inputs
  induction inputs with
  | nil => intro ing st b h; exact absurd rfl h
  | cons hd tl ih =>
    intro ing st b _
    cases hd with
    | syncSig => simp [runBatchAux]
    | stopSig => simp [runBatchAux]
    | ev e ok =>
      simp only [runBatchAux]
      split
      · simp
      · split
        · rcases eq_or_ne tl [] with h | h
          · subst h; simp [runBatchAux]
          · simpa using Nat.lt_succ_of_lt (ih _ _ _ h)
        · split
          · simp
          · rcases eq_or_ne tl [] with h | h
            · subst h; simp [runBatchAux]
            · simpa using Nat.lt_succ_of_lt (ih _ _ _ h)

/-- Unconsumed inputs were among the scripted inputs. -/
theorem runBatchAux_rest_subset (bs : Int) (so : Bool) :
    ∀ (inputs : List SubInput) (ing : Nat) (st : Bool) (b : List Event) (x : SubInput),
      x ∈ (runBatchAux bs so inputs ing st b).rest → x ∈ inputs := by
  intro inputs
  induction inputs with
  | nil => intro ing st b x hx; simp [runBatchAux] at hx
  | cons hd tl ih =>
    intro ing st b x hx
    cases hd with
    | syncSig =>
      simp only [runBatchAux] at hx
      exact List.mem_cons_of_mem _ hx
    | stopSig =>
      simp only [runBatchAux] at hx
      exact List.mem_cons_of_mem _ hx
    | ev e ok =>
      simp only [runBatchAux] at hx
      split at hx
      · exact List.mem_cons_of_mem _ hx
      · split at hx
        · exact List.mem_cons_of_mem _ (ih _ _ _ _ hx)
        · split at hx
          · exact List.mem_cons_of_mem _ hx
          · exact List.mem_cons_of_mem _ (ih _ _ _ _ hx)

/-- A batch ends `stopped` only if a `stopSig` (closed sync channel) was
among its inputs. -/
theorem runBatchAux_not_stopped (bs : Int) (so : Bool) :
    ∀ (inputs : List SubInput) (ing : Nat) (st : Bool) (b : List Event),
      SubInput.stopSig ∉ inputs →
      (runBatchAux bs so inputs ing st b).ended ≠ .stopped := by
  intro inputs
  induction inputs with
  | nil => intro ing st b _ h; simp [runBatchAux] at h
  | cons hd tl ih =>
    intro ing st b hmem
    cases hd with
    | syncSig => simp [runBatchAux]
    | stopSig => exact absurd (List.mem_cons_self _ _) hmem
    | ev e ok =>
      simp only [runBatchAux]
      split
      · simp
      · split
        · exact ih _ _ _ fun h => hmem (List.mem_cons_of_mem _ h)
        · split
          · simp
          · exact ih _ _ _ fun h => hmem (List.mem_cons_of_mem _ h)

/-- When `hecReq.Start()` succeeds, a batch never ends in `startFailed`. -/
theorem runBatchAux_not_startFailed (bs : Int) :
    ∀ (inputs : List SubInput) (ing : Nat) (st : Bool) (b : List Event),
      (runBatchAux bs true inputs ing st b).ended ≠ .startFailed := by
  intro inputs
  induction inputs with
  | nil => intro ing st b h; simp [runBatchAux] at h
  | cons hd tl ih =>
    intro ing st b
    cases hd with
    | syncSig => simp [runBatchAux]
    | stopSig => simp [runBatchAux]
    | ev e ok =>
      simp only [runBatchAux]
      split
      · next h => simp at h
      · split
        · exact ih _ _ _
        · split
          · simp
          · exact ih _ _ _

/-- A batch ends `starved` only with the scripted inputs exhausted. -/
theorem runBatchAux_starved_rest (bs : Int) (so : Bool) :
    ∀ (inputs : List SubInput) (ing : Nat) (st : Bool) (b : List Event),
      (runBatchAux bs so inputs ing st b).ended = .starved →
      (runBatchAux bs so inputs ing st b).rest = [] := by
  intro inputs
  induction inputs with
  | nil => intro ing st b _; rfl
  | cons hd tl ih =>
    intro ing st b h
    cases hd with
    | syncSig => simp [runBatchAux] at h
    | stopSig => simp [runBatchAux] at h
    | ev e ok =>
      simp only [runBatchAux] at h ⊢
      split at h
      · simp at h
      · split at h
        · next h1 h2 =>
          rw [if_neg h1, if_pos h2]
          exact ih _ _ _ h
        · split at h
          · simp at h
          · next h1 h2 h3 =>
            rw [if_neg h1, if_neg h2, if_neg h3]
            exact ih _ _ _ h

/-- A batch ends `full` only once the received-event count has reached the
batch size. -/
theorem runBatchAux_full_ge (bs : Int) (so : Bool) :
    ∀ (inputs : List SubInput) (ing : Nat) (st : Bool) (b : List Event),
      (runBatchAux bs so inputs ing st b).ended = .full →
      ((runBatchAux bs so inputs ing st b).ingested : Int) ≥ bs := by
  intro inputs
  induction inputs with
  | nil => intro ing st b h; simp [runBatchAux] at h
  | cons hd tl ih =>
    intro ing st b h
    cases hd with
    | syncSig => simp [runBatchAux] at h
    | stopSig => simp [runBatchAux] at h
    | ev e ok =>
      simp only [runBatchAux] at h ⊢
      split at h
      · simp at h
      · split at h
        · next h1 h2 =>
          rw [if_neg h1, if_pos h2]
          exact ih _ _ _ h
        · split at h
          · next h1 h2 h3 =>
            rw [if_neg h1, if_neg h2, if_pos h3]
            exact h3
          · next h1 h2 h3 =>
            rw [if_neg h1, if_neg h2, if_neg h3]
            exact ih _ _ _ h

/-- Conservation: with a working HEC request and all events encodable,
everything a batch consumes ends up in its request body, and nothing else
does. -/
theorem runBatchAux_conservation (bs : Int) :
    ∀ (inputs : List SubInput) (ing : Nat) (st : Bool) (b : List Event),
      (∀ e ok, SubInput.ev e ok ∈ inputs → ok = true) →
      (runBatchAux bs true inputs ing st b).body
          ++ eventsOf (runBatchAux bs true inputs ing st b).rest
        = b ++ eventsOf inputs := by
  intro inputs
  induction inputs with
  | nil => intro ing st b _; simp [runBatchAux, eventsOf]
  | cons hd tl ih =>
    intro ing st b hok
    cases hd with
    | syncSig => simp [runBatchAux, eventsOf]
    | stopSig => simp [runBatchAux, eventsOf]
    | ev e ok =>
      have he : ok = true := hok e ok (List.mem_cons_self _ _)
      subst he
      simp only [runBatchAux]
      split
      · next h => simp at h
      · split
        · next h1 h2 => simp at h2
        · split
          · simp [eventsOf]
          · rw [ih _ _ _ fun e2 ok2 h2 => hok e2 ok2 (List.mem_cons_of_mem _ h2)]
            simp [eventsOf]

/-- Every event delivered to a submitter before a final sync (with the
request starting and all encodes succeeding, and no shutdown in between)
is written to the body of one of its requests. -/
theorem submitterRun_bodies (bs : Int) :
    ∀ (fuel : Nat) (inputs : List SubInput),
      (∀ e ok, SubInput.ev e ok ∈ inputs → ok = true) →
      SubInput.stopSig ∉ inputs →
      inputs.length < fuel →
      allBodies (submitterRun bs true fuel inputs) = eventsOf inputs := by
  intro fuel
  induction fuel with
  | zero => intro inputs _ _ h; omega
  | succ fuel ih =>
    intro inputs hok hstop hlen
    have hcons : (runBatch bs true inputs).body ++ eventsOf (runBatch bs true inputs).rest
        = [] ++ eventsOf inputs :=
      runBatchAux_conservation bs inputs 0 false [] hok
    simp only [submitterRun]
    split
    · next heq => exact absurd heq (runBatchAux_not_stopped bs true inputs 0 false [] hstop)
    · next heq =>
      have hrest : (runBatch bs true inputs).rest = [] :=
        runBatchAux_starved_rest bs true inputs 0 false [] heq
      rw [hrest] at hcons
      simpa [allBodies, eventsOf] using hcons
    · next hne1 hne2 =>
      rcases eq_or_ne inputs [] with hnil | hnil
      · exact absurd (hnil ▸ rfl) hne2
      · have hlt : (runBatch bs true inputs).rest.length < inputs.length :=
          runBatchAux_rest_length bs true inputs 0 false [] hnil
        have hrec := ih (runBatch bs true inputs).rest
          (fun e ok hm => hok e ok (runBatchAux_rest_subset bs true inputs 0 false [] _ hm))
          (fun hm => hstop (runBatchAux_rest_subset bs true inputs 0 false [] _ hm))
          (by omega)
        simp only [allBodies, List.map_cons, List.flatten_cons]
        rw [show ((submitterRun bs true fuel (runBatch bs true inputs).rest).map
            BatchResult.body).flatten = allBodies (submitterRun bs true fuel
            (runBatch bs true inputs).rest) from rfl, hrec]
        exact hcons

/-- A two-step interleaving: the coordinator closes the single sync
channel and returns from `Stop`, before the submitter has run at all. -/
theorem stopReach_example : StopReach 1 (stopInit 1) ⟨1, true, [false]⟩ := by
  have h1 : StopStep 1 (stopInit 1) ⟨1, false, [false]⟩ :=
    StopStep.closeCh (stopInit 1) (by decide) rfl
  have h2 : StopStep 1 (⟨1, false, [false]⟩ : StopState) ⟨1, true, [false]⟩ :=
    StopStep.ret _ rfl rfl
  exact Relation.ReflTransGen.tail (Relation.ReflTransGen.single h1) h2

/-- Reachability invariant of the `Stop` interleaving: at most `n` channels
get closed, and `Stop` returns only with all `n` closed. -/
theorem stopReach_invariant (n : Nat) (s : StopState)
    (h : StopReach n (stopInit n) s) :
    s.closed ≤ n ∧ (s.returned = true → s.closed = n) := by
  induction h with
  | refl => simp [stopInit]
  | tail hr step ih =>
    cases step with
    | closeCh hlt hret => exact ⟨hlt, fun hr2 => absurd hr2 (by simp [hret])⟩
    | ret hcl hret => exact ⟨le_of_eq hcl, fun _ => hcl⟩
    | observe i hi => exact ih

/-! ## Claim theorems -/

/-- C1: the claim says `Start` spawns exactly `W` submitter loops when
`NewSplunkSpanSink` was given `workers = W`, one sync channel each, and
sizes the transport's idle pool to `W`.  The idle-pool half is true, but
the Go composite literal in `NewSplunkSpanSink` never assigns the struct's
`workers` field, so `Start`'s `if sss.workers > 0` always fails and it
spawns exactly one submitter regardless of `W`: here, evaluated over all
constructor arguments. -/
theorem C1_start_spawns_one_submitter (server token host vsn : String)
    (it st bs w rate : Int) :
    (NewSplunkSpanSink server token host vsn it st bs w rate).1.maxIdleConnsPerHost = w
    ∧ (NewSplunkSpanSink server token host vsn it st bs w rate).2.workers = 0
    ∧ startWorkers (NewSplunkSpanSink server token host vsn it st bs w rate).2 = 1 :=
  ⟨rfl, rfl, rfl⟩

/-- C2: for a valid span, `Ingest` admits the span if and only if its
indicator flag is set or its trace id is divisible by the configured
sample rate; a non-admitted span increments `skippedSpans` by one (mod
2^32) and is discarded with a `nil` error; and the decision is a
deterministic function of `(indicator, trace id)` alone — independent of
the other span fields and of the channel-send outcome. -/
theorem C2_sampling_decision (sss : SplunkSpanSink) (span span' : SSFSpan)
    (o o' : SendOutcome) (hv : ValidateTrace span = none) (hv' : ValidateTrace span' = none) :
    (samplingSkips sss span o = false ↔
      (span.indicator = true ∨ span.traceId.tmod sss.spanSampleRate = 0))
    ∧ (samplingSkips sss span o = true →
        Ingest sss span o =
          ⟨none, { sss with skippedSpans := wrap32 (sss.skippedSpans + 1) }, none⟩)
    ∧ (span.indicator = span'.indicator → span.traceId = span'.traceId →
        samplingSkips sss span o = samplingSkips sss span' o') := by
  refine ⟨?_, ?_, ?_⟩
  · rw [samplingSkips_eq sss span o hv]
    simp only [decide_eq_false_iff_not, not_and_or, not_not]
  · intro hskip
    rw [samplingSkips_eq sss span o hv, decide_eq_true_eq] at hskip
    simp only [Ingest, hv, if_pos hskip]
  · intro hind htid
    rw [samplingSkips_eq sss span o hv, samplingSkips_eq sss span' o' hv', hind, htid]

/-- C2 witness: the theorem applied to `oddSpan` against `exampleSink`. -/
theorem C2_sampling_decision_witness :
    ValidateTrace oddSpan = none ∧
      (samplingSkips exampleSink oddSpan .sent = false ↔
        (oddSpan.indicator = true ∨ oddSpan.traceId.tmod exampleSink.spanSampleRate = 0)) :=
  ⟨rfl, (C2_sampling_decision exampleSink oddSpan oddSpan .sent .sent rfl rfl).1⟩

/-- C3 counterexample: the claim says `Ingest` never returns an error for
any span, every failure being counted instead.  But for a span failing
validation (here: it ends before it starts), `Ingest` propagates the
validation error to its caller. -/
theorem C3_counterexample_validation_error_returned :
    (Ingest exampleSink invalidSpan .sent).ret = some "span duration must be nonnegative" := rfl

/-- C3 (amended): `Ingest` returns to its caller exactly the validation
error: a span failing validation gets that error back, and for every span
passing validation `Ingest` returns `nil`, all later failures (sampling
rejection, timeout) being classified and counted in metrics only. -/
theorem C3_ingest_error_is_validation_only (sss : SplunkSpanSink) (span : SSFSpan)
    (o : SendOutcome) :
    (Ingest sss span o).ret = ValidateTrace span :=
  ingest_ret_eq sss span o

/-- C4: for a valid, admitted span, when the `select` ends in the timeout
branch `Ingest` increments `droppedSpans` by exactly one (mod 2^32),
discards the span and returns `nil`; the timeout branch is possible
exactly when `ingestTimeout > 0` (with `ingestTimeout = 0` the context is
`Background` and the send is an unbounded rendezvous); and with no
submitter draining the channel the send itself can never complete. -/
theorem C4_ingest_timeout_drops (sss : SplunkSpanSink) (span : SSFSpan) (r : Bool)
    (hv : ValidateTrace span = none)
    (hadm : span.indicator = true ∨ span.traceId.tmod sss.spanSampleRate = 0) :
    (sss.ingestTimeout > 0 →
      Ingest sss span .timedOut =
        ⟨none, { sss with droppedSpans := wrap32 (sss.droppedSpans + 1) }, none⟩)
    ∧ (sss.ingestTimeout > 0 → outcomePossible sss.ingestTimeout r .timedOut = true)
    ∧ outcomePossible 0 r .timedOut = false
    ∧ outcomePossible sss.ingestTimeout false .sent = false := by
  have hcond : ¬(¬span.indicator = true ∧ span.traceId.tmod sss.spanSampleRate ≠ 0) := by
    tauto
  refine ⟨fun _ => ?_, fun h => ?_, rfl, rfl⟩
  · simp only [Ingest, hv, if_neg hcond]
  · unfold outcomePossible
    simpa using h

/-- C4 witness: a sink with `ingestTimeout = 1ms`, no submitter draining,
a single valid admitted span (trace id 4 at rate 2). -/
theorem C4_ingest_timeout_drops_witness :
    ValidateTrace sampleSpan = none
    ∧ (sampleSpan.indicator = true
        ∨ sampleSpan.traceId.tmod (NewSplunkSpanSink "http://splunk.service.consul" "token"
            "localhost" "" 1000000 0 10 2 1).2.spanSampleRate = 0)
    ∧ outcomePossible (NewSplunkSpanSink "http://splunk.service.consul" "token"
        "localhost" "" 1000000 0 10 2 1).2.ingestTimeout false .timedOut = true :=
  ⟨rfl, by decide,
    (C4_ingest_timeout_drops _ sampleSpan false rfl (by decide)).2.1 (by decide)⟩

/-- C7: `Flush` performs `Sync` first and then reports the per-interval
ingested/dropped/skipped counters, swapping each to zero atomically; a
second `Flush` with no intervening `Ingest` therefore reports zero for all
three. -/
theorem C7_flush_reports_and_zeroes (sss : SplunkSpanSink) :
    (Flush sss).1
      = [.syncOp, .reportOp ⟨sss.ingestedSpans, sss.droppedSpans, sss.skippedSpans⟩]
    ∧ (Flush sss).2
      = { sss with ingestedSpans := 0, droppedSpans := 0, skippedSpans := 0 }
    ∧ (Flush (Flush sss).2).1 = [.syncOp, .reportOp ⟨0, 0, 0⟩] :=
  ⟨rfl, rfl, rfl⟩

/-- C10: `NewSplunkSpanSink` clamps every sample rate below 1 up to 1, so
the stored rate is always at least 1 and `TraceId % spanSampleRate` never
divides by zero; and when the effective rate is 1 every valid span is
admitted — the skipped branch is unreachable. -/
theorem C10_sample_rate_clamped (server token host vsn : String) (it st bs w rate : Int)
    (span : SSFSpan) (o : SendOutcome) (hv : ValidateTrace span = none) :
    1 ≤ (NewSplunkSpanSink server token host vsn it st bs w rate).2.spanSampleRate
    ∧ (rate < 1 → (NewSplunkSpanSink server token host vsn it st bs w rate).2.spanSampleRate = 1)
    ∧ ((NewSplunkSpanSink server token host vsn it st bs w rate).2.spanSampleRate = 1 →
        samplingSkips (NewSplunkSpanSink server token host vsn it st bs w rate).2 span o = false
        ∧ (Ingest (NewSplunkSpanSink server token host vsn it st bs w rate).2 span o).ret
            = none) := by
  have hrate : (NewSplunkSpanSink server token host vsn it st bs w rate).2.spanSampleRate
      = if rate < 1 then 1 else rate := rfl
  refine ⟨?_, fun h => ?_, fun h1 => ⟨?_, ?_⟩⟩
  · rw [hrate]
    split <;> omega
  · rw [hrate, if_pos h]
  · rw [samplingSkips_eq _ _ _ hv, h1]
    simp [Int.tmod_one]
  · rw [ingest_ret_eq, hv]

/-- C10 witness: a sink constructed with rate 0 (clamped to 1) admits the
valid non-indicator span with trace id 1. -/
theorem C10_sample_rate_clamped_witness :
    ValidateTrace oddSpan = none
    ∧ (samplingSkips (NewSplunkSpanSink "http://splunk.service.consul" "token" "localhost" ""
          0 0 10 2 0).2 oddSpan .sent = false
        ∧ (Ingest (NewSplunkSpanSink "http://splunk.service.consul" "token" "localhost" ""
            0 0 10 2 0).2 oddSpan .sent).ret = none) :=
  ⟨rfl, (C10_sample_rate_clamped "http://splunk.service.consul" "token" "localhost" ""
    0 0 10 2 0 oddSpan .sent rfl).2.2 rfl⟩

/-- C6 counterexample: the claim says every submission outcome yields
exactly one outcome metric, and that every unexpected status yields a
`cause=error` failure counter with the parsed body.  But when such a
response's body does not parse as a HEC response (here a 400 with an
unparseable body), `makeHTTPRequest` logs a warning and returns without
adding any outcome counter at all. -/
theorem C6_counterexample_unparseable_body :
    outcomeCount (makeHTTPRequest (.response 400 .unparseable)).1 = 0
    ∧ (makeHTTPRequest (.response 400 .unparseable)).2 = [.warnCouldNotParse 400] := by
  exact ⟨rfl, rfl⟩

/-- C6 (amended): `makeHTTPRequest` emits at most one outcome metric per
request, and exactly one except when an unexpected status's body fails to
parse (then only a warning is logged): a success counter on 200; a
failure counter with `cause=submission_timeout` on a URL timeout (no body
parse); `cause=execution` on other transport errors; `cause=
internal_server_error`, `status_code=8` on 500; `cause=service_unavailable`,
`status_code=9` on 503 with no error-level log; and for any other status
whose body parses, `cause=error` with the parsed HEC code, logged at error
level with the response text and event number. -/
theorem C6_outcome_classification (st0 : Int) (b : HECBody) (parsed : HECResponse)
    (h200 : st0 ≠ 200) (h500 : st0 ≠ 500) (h503 : st0 ≠ 503) :
    makeHTTPRequest .urlTimeout
      = ([.count failureMetric (some "submission_timeout") none, .timing timingMetric], [])
    ∧ makeHTTPRequest .otherError
      = ([.count failureMetric (some "execution") none, .timing timingMetric], [])
    ∧ makeHTTPRequest (.response 200 b)
      = ([.count successMetric none none, .timing timingMetric], [])
    ∧ makeHTTPRequest (.response 500 b)
      = ([.count failureMetric (some "internal_server_error") (some "8"),
          .timing timingMetric], [])
    ∧ makeHTTPRequest (.response 503 b)
      = ([.count failureMetric (some "service_unavailable") (some "9"),
          .timing timingMetric], [])
    ∧ makeHTTPRequest (.response st0 (.parses parsed))
      = ([.count failureMetric (some "error") (some (toString parsed.code)),
          .timing timingMetric],
         [.errorHECResponse st0 parsed.code parsed.text parsed.invalidEventNumber])
    ∧ makeHTTPRequest (.response st0 .unparseable)
      = ([.timing timingMetric], [.warnCouldNotParse st0])
    ∧ ∀ res : HTTPResult, outcomeCount (makeHTTPRequest res).1 ≤ 1 := by
  refine ⟨rfl, rfl, rfl, rfl, rfl, ?_, ?_, ?_⟩
  · simp only [makeHTTPRequest, if_neg h200, if_neg h500, if_neg h503]
  · simp only [makeHTTPRequest, if_neg h200, if_neg h500, if_neg h503]
  · intro res
    cases res with
    | urlTimeout => decide
    | otherError => decide
    | response s body =>
      simp only [makeHTTPRequest]
      split_ifs <;> cases body <;> simp [outcomeCount]

/-- C6 witness: the classification applied at status 400 with a parsed HEC
body reporting code 6. -/
theorem C6_outcome_classification_witness :
    ((400 : Int) ≠ 200 ∧ (400 : Int) ≠ 500 ∧ (400 : Int) ≠ 503)
    ∧ makeHTTPRequest (.response 400 (.parses ⟨6, "Invalid data format", 0⟩))
      = ([.count failureMetric (some "error") (some (toString (6 : Int))),
          .timing timingMetric],
         [.errorHECResponse 400 6 "Invalid data format" 0]) :=
  ⟨⟨by decide, by decide, by decide⟩,
    (C6_outcome_classification 400 .unparseable ⟨6, "Invalid data format", 0⟩
      (by decide) (by decide) (by decide)).2.2.2.2.2.1⟩

/-- C5 counterexample: the claim says a batch ends exactly when batch_size
events have been encoded, a sync arrives, or the sink stops.  But when
`hecReq.Start()` fails on the batch's first event, the batch ends at once:
with batch size 10 and two pending events, it ends after one received
event, zero events encoded, no sync and no stop, leaving the second event
unconsumed. -/
theorem C5_counterexample_request_start_failure :
    (runBatch 10 false [.ev sampleEvent true, .ev sampleEvent true]).ended = .startFailed
    ∧ (runBatch 10 false [.ev sampleEvent true, .ev sampleEvent true]).ingested = 1
    ∧ (runBatch 10 false [.ev sampleEvent true, .ev sampleEvent true]).body = []
    ∧ (runBatch 10 false [.ev sampleEvent true, .ev sampleEvent true]).rest
        = [.ev sampleEvent true] := by
  exact ⟨rfl, rfl, rfl, rfl⟩

/-- C5 (amended): a submitter ends its current batch exactly when one of
FOUR events occurs: (a) the count of received events reaches batch_size
(an event failing JSON encoding still counts toward the batch but defers
the size check), (b) a sync signal arrives, (c) the sink is told to stop,
or (d) the HEC request fails to start on the batch's first event; and
submitting 100 admitted, successfully-encoded spans with batch_size=10
posts exactly 100 event objects in 10 requests. -/
theorem C5_batch_end_causes (bs : Int) (so : Bool) (inputs rest : List SubInput)
    (ing : Nat) (st : Bool) (b : List Event) :
    runBatchAux bs so (.syncSig :: rest) ing st b = ⟨ing, b, st, .synced, rest⟩
    ∧ runBatchAux bs so (.stopSig :: rest) ing st b = ⟨ing, b, st, .stopped, rest⟩
    ∧ ((runBatch bs so inputs).ended = .full →
        ((runBatch bs so inputs).ingested : Int) ≥ bs)
    ∧ ((runBatch bs so inputs).ended = .startFailed → so = false)
    ∧ ((submitterRun 10 true 12 c5Inputs).map fun r => r.body.length)
        = [10, 10, 10, 10, 10, 10, 10, 10, 10, 10, 0]
    ∧ ((submitterRun 10 true 12 c5Inputs).filter fun r => r.requestStarted).length = 10
    ∧ (allBodies (submitterRun 10 true 12 c5Inputs)).length = 100 := by
  refine ⟨rfl, rfl, runBatchAux_full_ge bs so inputs 0 false [], ?_, by rfl, by rfl, by rfl⟩
  · intro h
    cases hso : so with
    | false => rfl
    | true => exact absurd h (hso ▸ runBatchAux_not_startFailed bs inputs 0 false [])

/-- C5 witness: the end-cause characterization applied to a failing
request start. -/
theorem C5_batch_end_causes_witness :
    (runBatch 5 false [.ev sampleEvent true]).ended = .startFailed ∧ false = false :=
  ⟨rfl, (C5_batch_end_causes 5 false [.ev sampleEvent true] [] 0 false []).2.2.2.1 rfl⟩

/-- C8 counterexample: the claim says `Stop` returns only after all
submitters have finished their last submission request.  But `Stop` only
closes the sync channels and returns at once: with one submitter, the
state where `Stop` has returned while the submitter has not even observed
the close (let alone finished a request) is reachable. -/
theorem C8_counterexample_stop_returns_before_exit :
    ¬ ∀ s : StopState, StopReach 1 (stopInit 1) s → s.returned = true →
        s.exited = List.replicate 1 true := by
  intro h
  have := h ⟨1, true, [false]⟩ stopReach_example rfl
  simp [List.replicate] at this

/-- C8 (amended): `Stop` closes the sync channel of every submitter and
returns as soon as all are closed, without waiting for the submitters;
each submitter, upon observing its closed channel, terminally ends its
current batch and exits its loop (remaining free to finish its last
request after `Stop` has already returned). -/
theorem C8_stop_closes_all_then_submitters_exit (n : Nat) (s : StopState)
    (bs : Int) (so : Bool) (fuel : Nat) (rest : List SubInput)
    (hreach : StopReach n (stopInit n) s) (hret : s.returned = true) :
    s.closed = n
    ∧ StopOps n = (List.range n).map MainOp.closeChan
    ∧ MainOp.waitAll ∉ StopOps n
    ∧ (∀ i < n, StopStep n s { s with exited := s.exited.set i true })
    ∧ runBatch bs so (.stopSig :: rest) = ⟨0, [], false, .stopped, rest⟩
    ∧ submitterRun bs so (fuel + 1) (.stopSig :: rest) = [⟨0, [], false, .stopped, rest⟩] := by
  have hcl := (stopReach_invariant n s hreach).2 hret
  refine ⟨hcl, rfl, ?_, fun i hi => StopStep.observe s i (by rw [hcl]; exact hi), rfl, ?_⟩
  · intro hmem
    rcases List.mem_map.1 hmem with ⟨i, _, heq⟩
    cases heq
  · simp [submitterRun, runBatch, runBatchAux]

/-- C8 witness: the amended statement at the concrete reachable state in
which `Stop` has returned on a one-submitter sink. -/
theorem C8_stop_closes_all_witness :
    (⟨1, true, [false]⟩ : StopState).returned = true
    ∧ (⟨1, true, [false]⟩ : StopState).closed = 1 :=
  ⟨rfl, (C8_stop_closes_all_then_submitters_exit 1 ⟨1, true, [false]⟩ 10 true 0 []
    stopReach_example rfl).1⟩

/-- C9 counterexample: the claim says every span whose `Ingest` completed
before `Sync` has been written to some outgoing request body.  But a valid
non-indicator span whose trace id is not divisible by the sample rate
completes `Ingest` normally (`nil` return) while being skipped: no event
is ever handed to any submitter, so it is written to no request body. -/
theorem C9_counterexample_skipped_span_never_written :
    (Ingest exampleSink oddSpan .sent).ret = none
    ∧ (Ingest exampleSink oddSpan .sent).sent = none := by
  exact ⟨rfl, rfl⟩

/-- C9 (amended): after `Sync()` returns, every span that `Ingest`
delivered to a submitter before the call has been written to the body of
some outgoing HTTP request, provided the HEC requests could be started and
the events JSON-encoded (spans that were skipped or dropped are written
nowhere); `Sync` adds the submitter count to the wait group, signals every
submitter, and waits for their acknowledgements as its final act. -/
theorem C9_sync_completeness (bs : Int) (es : List Event) (n : Nat) :
    allBodies (submitterRun bs true (es.length + 2)
        ((es.map fun e => SubInput.ev e true) ++ [SubInput.syncSig])) = es
    ∧ SyncOps n = .addWG n :: ((List.range n).map .sendChan ++ [.waitAll])
    ∧ (SyncOps n).getLast? = some .waitAll := by
  refine ⟨?_, rfl, ?_⟩
  · rw [submitterRun_bodies]
    · simp only [eventsOf, List.filterMap_append, List.filterMap_map]
      rw [List.append_right_eq_self.2 (by rfl)]
      exact List.filterMap_some es
    · intro e ok hmem
      rcases List.mem_append.1 hmem with h | h
      · rcases List.mem_map.1 h with ⟨e', _, heq⟩
        cases heq
        rfl
      · simp at h
    · intro hmem
      rcases List.mem_append.1 hmem with h | h
      · rcases List.mem_map.1 h with ⟨e', _, heq⟩
        cases heq
      · simp at h
    · simp
  · rw [show SyncOps n = (.addWG n :: (List.range n).map .sendChan) ++ [.waitAll] from rfl]
    exact List.getLast?_concat _

end Veneur.Splunk
